import Mathlib

/-!
Verification development for the emitt inbound-email processor.

Shallow embedding of the Go sources:
- internal/router/router.go: rule matching and first-match routing
- internal/processor/llm.go: the tool-calling loop `ProcessWithTools`
- internal/processor/processor.go + internal/storage/sqlite.go:
  persistence of an email row across `Process`
- the MIME body walker `Parser.parseBody`
- the `send_email` tool (reply / forward / send)
- the `database_query` tool validation
- the MCP client `ServerConnection.request` pending-map discipline
- `generateMessageID`

Go regular expressions appear only through `Regexp.MatchString`, so a
compiled pattern is embedded as its matching function `String → Bool`.
Machine integers of the Go code are embedded as `Int`/`Nat`; JSON
serialization of tool results is embedded by the structured value that
is serialized, which the serialization determines injectively in the
fields the claims speak about.
-/

namespace Emitt

/-! ## Go string primitives

Lean's `String.startsWith`, `toUpper`, `trim` do not reduce inside the
kernel, so the Go standard-library functions the sources call are
embedded directly over character lists with the same semantics. -/
/-- Go strings.HasPrefix on character lists. -/
def charsHasPre : List Char → List Char → Bool
  | _, [] => true
  | [], _ :: _ => false
  | a :: as, b :: bs => a == b && charsHasPre as bs

/-- Go strings.HasPrefix. -/
def goHasPre (s pre : String) : Bool := charsHasPre s.toList pre.toList

/-- Go strings.Contains on character lists. -/
def charsContains : List Char → List Char → Bool
  | [], pat => charsHasPre [] pat
  | c :: rest, pat => charsHasPre (c :: rest) pat || charsContains rest pat

/-- Go strings.Contains. -/
def goContains (s sub : String) : Bool := charsContains s.toList sub.toList

/-- Go strings.ToUpper. -/
def goToUpper (s : String) : String := String.mk (s.toList.map Char.toUpper)

/-- Go strings.ToLower. -/
def goToLower (s : String) : String := String.mk (s.toList.map Char.toLower)

/-- Go strings.TrimSpace. -/
def goTrimSpace (s : String) : String :=
  String.mk (((s.toList.dropWhile Char.isWhitespace).reverse.dropWhile
    Char.isWhitespace).reverse)

/-- Go type email.Address: an address with optional display name.
The Go field `Address` is called `Addr` here because Lean does not allow
a field named after its own structure. -/
structure Address where
  Name : String
  Addr : String
deriving Repr, DecidableEq

/-- Go method Address.String from internal/email (part_002). -/
def Address.str (a : Address) : String :=
  if a.Name != "" then a.Name ++ " <" ++ a.Addr ++ ">" else a.Addr

/-- Go type email.InboundEmail, restricted to the fields the claims use.
`Date` holds the already-formatted date string (Go formats a time.Time);
the formatting itself is outside every claim. -/
structure InboundEmail where
  MessageID : String
  From : Address
  To : List Address
  ReplyTo : Option Address
  Subject : String
  Date : String
  TextBody : String
  HTMLBody : String
deriving Repr, DecidableEq

/-- Go method InboundEmail.Body: best available body, text preferred. -/
def InboundEmail.Body (e : InboundEmail) : String :=
  if e.TextBody != "" then e.TextBody else e.HTMLBody

/-- Go type config.CompiledMatch: each field is `nil` (no predicate) or a
compiled regexp, embedded by its `MatchString` function. -/
structure CompiledMatch where
  From : Option (String → Bool)
  To : Option (String → Bool)
  Subject : Option (String → Bool)

/-- Go type router.Rule, with the processor kept as its type string
(`rule.Processor.Type`); the rest of ProcessorConfig is unused by the
routing claims. -/
structure Rule where
  Name : String
  Match : CompiledMatch
  ProcessorType : String

/-- Go method Rule.Matches (router.go lines 115-145): the three early
returns become a short-circuit conjunction. -/
def Rule.Matches (r : Rule) (e : InboundEmail) : Bool :=
  (match r.Match.From with
   | some p => p e.From.Addr
   | none => true) &&
  (match r.Match.To with
   | some p => e.To.any (fun a => p a.Addr)
   | none => true) &&
  (match r.Match.Subject with
   | some p => p e.Subject
   | none => true)

/-- Go method RuleSet.FindMatch (router.go lines 177-184): first rule,
in config order, that matches. -/
def RuleSet.FindMatch (rules : List Rule) (e : InboundEmail) : Option Rule :=
  rules.find? (fun r => r.Matches e)

/-- Go type router.RouteResult, restricted to the claim-relevant fields. -/
structure RouteResult where
  MailboxName : String
  ProcessorType : String
deriving Repr, DecidableEq

/-- Go method Router.Route (router.go lines 50-83). -/
def Router.Route (rules : List Rule) (e : InboundEmail) : RouteResult :=
  match RuleSet.FindMatch rules e with
  | none => { MailboxName := "unmatched", ProcessorType := "noop" }
  | some rule =>
      { MailboxName := rule.Name
        ProcessorType := if rule.ProcessorType == "" then "llm" else rule.ProcessorType }

/-- The spec's reading of rule matching: every declared predicate must
hit; an omitted predicate is a wildcard; `from` is checked against the
sender's bare address; `to` matches if any one recipient matches;
`subject` is checked against the decoded subject. -/
def MatchesSpec (r : Rule) (e : InboundEmail) : Prop :=
  (∀ p, r.Match.From = some p → p e.From.Addr = true) ∧
  (∀ p, r.Match.To = some p → ∃ a ∈ e.To, p a.Addr = true) ∧
  (∀ p, r.Match.Subject = some p → p e.Subject = true)

def c1Rules : List Rule :=
  [ { Name := "support"
      Match := { From := none, To := some (fun s => s == "support@example.com"), Subject := none }
      ProcessorType := "llm" },
    { Name := "all"
      Match := { From := none, To := none, Subject := none }
      ProcessorType := "noop" } ]

def c1Email : InboundEmail :=
  { MessageID := "<m1@x>"
    From := { Name := "", Addr := "alice@example.com" }
    To := [{ Name := "", Addr := "other@example.com" },
           { Name := "", Addr := "support@example.com" }]
    ReplyTo := none
    Subject := "help"
    Date := ""
    TextBody := "hi"
    HTMLBody := "" }

/-! ## Tool results (internal/tools/registry.go)

`ToolResult` is the envelope json-serialized by `NewSuccessResult` /
`NewErrorResult`; the JSON step is embedded by the structured value. -/
/-- Go type tools.ToolResult. -/
structure ToolResult where
  success : Bool
  data : String
  error : String
deriving Repr, DecidableEq

/-- Go function tools.NewErrorResult (registry.go lines 160-166). -/
def NewErrorResult (msg : String) : ToolResult :=
  { success := false, data := "", error := msg }

/-- Go function tools.NewSuccessResult (registry.go lines 146-157),
taking the already-serialized data payload. -/
def NewSuccessResult (data : String) : ToolResult :=
  { success := true, data := data, error := "" }

/-! ## The LLM tool-calling loop (internal/processor/llm.go)

`Chat` performs network I/O; it is embedded as an oracle
`chat : Nat → ChatResult` giving the outcome of the i-th model call.
`Registry.Execute` is embedded as
`exec : String → String → Except String ToolResult` (tool name and raw
arguments to either an error — including lookup failure
"unknown tool: name" — or the parsed success envelope). -/
/-- Go type processor.ContentItem. -/
structure ContentItem where
  type : String
  text : String
deriving Repr, DecidableEq

/-- Go type processor.OutputItem (fields used by the loop). -/
structure OutputItem where
  type : String
  role : String
  content : List ContentItem
  name : String
  arguments : String
  callID : String
deriving Repr, DecidableEq

/-- Go type processor.ResponseObject (fields used by the loop). -/
structure ResponseObject where
  status : String
  output : List OutputItem
deriving Repr, DecidableEq

/-- Outcome of one `LLMClient.Chat` call. -/
inductive ChatResult where
  | ok (resp : ResponseObject)
  | err (e : String)
deriving Repr, DecidableEq

/-- One element of the `input` slice grown by the loop: the initial user
message, or a function_call_output entry holding the serialized tool
result for one call id. -/
inductive InputItem where
  | userMsg (role content : String)
  | functionCallOutput (callID : String) (output : ToolResult)
deriving Repr, DecidableEq

/-- Return value of the loop (`(string, error)` in Go). -/
inductive LoopResult where
  | text (s : String)
  | fail (e : String)
deriving Repr, DecidableEq

/-- llm.go lines 208-219: when the response status is "completed", the
first output_text of an assistant message, if any. -/
def completionText (resp : ResponseObject) : Option String :=
  if resp.status == "completed" then
    resp.output.findSome? (fun item =>
      if item.type == "message" && item.role == "assistant" then
        item.content.findSome? (fun c =>
          if c.type == "output_text" then some c.text else none)
      else none)
  else none

/-- llm.go lines 222-227: the function_call items of a response. -/
def functionCalls (resp : ResponseObject) : List OutputItem :=
  resp.output.filter (fun item => item.type == "function_call")

/-- llm.go lines 230-239: first output_text of any message item,
role not checked. -/
def messageText (resp : ResponseObject) : Option String :=
  resp.output.findSome? (fun item =>
    if item.type == "message" then
      item.content.findSome? (fun c =>
        if c.type == "output_text" then some c.text else none)
    else none)

/-- llm.go lines 250-260: run one function call; an execution error is
converted by `NewErrorResult`, and either way exactly one
function_call_output item is produced for the call id. -/
def execOne (exec : String → String → Except String ToolResult)
    (fc : OutputItem) : InputItem :=
  match exec fc.name fc.arguments with
  | .ok r => .functionCallOutput fc.callID r
  | .error e => .functionCallOutput fc.callID (NewErrorResult e)

/-- Instrumented outcome of the loop: result, number of model calls
made, final `input` slice, and the function_call items executed. -/
structure LoopOut where
  result : LoopResult
  modelCalls : Nat
  finalInput : List InputItem
  executedCalls : List OutputItem
deriving Repr, DecidableEq

/-- llm.go lines 201-264: the `for i := 0; i < maxIterations; i++` body.
`rem` is the number of iterations left, `i` the absolute index. -/
def runLoop (chat : Nat → ChatResult)
    (exec : String → String → Except String ToolResult) :
    Nat → Nat → List InputItem → LoopOut
  | _, 0, input =>
      ⟨.fail "max iterations reached without completion", 0, input, []⟩
  | i, rem + 1, input =>
      match chat i with
      | .err e => ⟨.fail e, 1, input, []⟩
      | .ok resp =>
          match completionText resp with
          | some t => ⟨.text t, 1, input, []⟩
          | none =>
              let fcs := functionCalls resp
              if fcs.isEmpty then
                ⟨.text ((messageText resp).getD ""), 1, input, []⟩
              else
                let out := runLoop chat exec (i + 1) rem
                  (input ++ fcs.map (execOne exec))
                ⟨out.result, out.modelCalls + 1, out.finalInput,
                  fcs ++ out.executedCalls⟩

/-- Go method LLMClient.ProcessWithTools (llm.go lines 181-265):
non-positive `maxIterations` defaults to 10; the loop starts from the
single user message. -/
def ProcessWithTools (chat : Nat → ChatResult)
    (exec : String → String → Except String ToolResult)
    (userMessage : String) (maxIterations : Int) : LoopOut :=
  let m : Int := if maxIterations ≤ 0 then 10 else maxIterations
  runLoop chat exec 0 m.toNat [.userMsg "user" userMessage]

/-- A model response that neither completes with text nor stops the
loop: the next iteration will run. -/
def continues : ChatResult → Bool
  | .err _ => false
  | .ok resp => (completionText resp).isNone && !(functionCalls resp).isEmpty

/-- A model oracle for the C2 witness that always emits one tool call
and never completes. -/
def c2chat : Nat → ChatResult := fun _ =>
  .ok { status := "in_progress"
        output := [{ type := "function_call", role := "", content := [],
                     name := "http_request", arguments := "null",
                     callID := "call_1" }] }

/-- A tool executor for the C2 witness. -/
def c2exec : String → String → Except String ToolResult := fun _ _ =>
  .ok (NewSuccessResult "ok")

/-- A model response for the C3 witness with one tool call. -/
def c3resp : ResponseObject :=
  { status := "in_progress"
    output := [{ type := "function_call", role := "", content := [],
                 name := "nosuch", arguments := "null", callID := "call_9" }] }

/-- A model oracle for the C3 witness. -/
def c3chat : Nat → ChatResult := fun _ => .ok c3resp

/-- A tool executor for the C3 witness that always errors, as the
registry does on an unknown tool name. -/
def c3exec : String → String → Except String ToolResult := fun n _ =>
  .error ("unknown tool: " ++ n)

/-! ## Email persistence (processor.go Process, sqlite.go)

Only the columns the claim concerns are carried: `mailbox_name`,
`status`, and whether `processed_at` is set. -/
/-- The claim-relevant columns of a row of the `emails` table. -/
structure EmailRow where
  MailboxName : String
  Status : String
  HasProcessedAt : Bool
deriving Repr, DecidableEq

/-- Go method Store.SaveEmail (sqlite.go lines 122-149): inserts a row
holding the struct's current field values. -/
def SaveEmail (mailboxName status : String) : EmailRow :=
  { MailboxName := mailboxName, Status := status, HasProcessedAt := false }

/-- Go method Store.UpdateEmailStatus (sqlite.go lines 185-200): the SQL
statement is `UPDATE emails SET status = ?, processed_at = ? WHERE id = ?`;
it writes no other column, and processed_at is non-NULL exactly for the
two terminal statuses. -/
def UpdateEmailStatus (row : EmailRow) (status : String) : EmailRow :=
  { row with
    Status := status
    HasProcessedAt := status == "completed" || status == "failed" }

/-- The stored row produced by one run of `Process`, next to the routing
decision it computed. -/
structure ProcessOutcome where
  row : EmailRow
  routedMailbox : String
deriving Repr, DecidableEq

/-- Go method Processor.Process (processor.go lines 48-147), restricted
to its writes of the stored email row. `routeResult` is the value
returned by `Router.Route` and `processOk` tells whether the processor
step succeeded. The struct `dbEmail` is inserted before routing with a
zero-valued `MailboxName`; line 107 assigns
`dbEmail.MailboxName = routeResult.MailboxName` on the in-memory struct
only, and the two subsequent `UpdateEmailStatus` calls are the only
further writes of the row. -/
def Process (routeResult : RouteResult) (processOk : Bool) : ProcessOutcome :=
  let row0 := SaveEmail "" "pending"
  let row1 := UpdateEmailStatus row0 "processing"
  let row2 := UpdateEmailStatus row1 (if processOk then "completed" else "failed")
  { row := row2, routedMailbox := routeResult.MailboxName }

/-! ## MIME body walking (Parser.parseBody, part_003 lines 121-180) -/
/-- A parsed MIME entity: a multipart node, or a leaf part with its
media type, content disposition, filename and decoded body bytes. -/
inductive Part where
  | multipart (parts : List Part)
  | leaf (mediaType disposition filename body : String)

/-- The body/attachment state accumulated by the walk on InboundEmail. -/
structure ParsedBody where
  TextBody : String
  HTMLBody : String
  AttachmentNames : List String
deriving Repr, DecidableEq

mutual
/-- Go method Parser.parseBody (part_003 lines 121-180): multiparts
recurse over their sub-parts in order; a part with attachment
disposition (or a filename without inline disposition) is appended to
the attachments; a text/plain or text/html part overwrites the
corresponding body field unconditionally. -/
def parseBody : Part → ParsedBody → ParsedBody
  | .multipart parts, acc => parseBodyList parts acc
  | .leaf mediaType disposition filename body, acc =>
      if disposition == "attachment" || (filename != "" && disposition != "inline") then
        { acc with AttachmentNames := acc.AttachmentNames ++ [filename] }
      else if goHasPre mediaType "text/plain" then
        { acc with TextBody := body }
      else if goHasPre mediaType "text/html" then
        { acc with HTMLBody := body }
      else acc

/-- The `mr.NextPart()` loop inside parseBody. -/
def parseBodyList : List Part → ParsedBody → ParsedBody
  | [], acc => acc
  | p :: rest, acc => parseBodyList rest (parseBody p acc)
end

/-- A message with two text/plain parts, for the C5 counterexample. -/
def c5TwoPlain : Part :=
  .multipart [.leaf "text/plain" "" "" "first", .leaf "text/plain" "" "" "second"]

/-! ## The send_email tool (part_005)

The `EmailSender` interface is embedded as a function
`send : OutboundEmail → Except String Unit`; each execute function
returns its tool-result envelope together with the list of outbound
emails handed to the sender (empty when the sender is never invoked). -/
/-- Go type email.OutboundEmail (fields used by the tool). -/
structure OutboundEmail where
  From : Address
  To : List Address
  Cc : List Address
  Subject : String
  TextBody : String
  HTMLBody : String
  InReplyTo : String
deriving Repr, DecidableEq

/-- Go type tools.EmailTool: sender configuration and the current
inbound email bound by SetCurrentEmail (nil when never bound). -/
structure EmailTool where
  fromAddress : String
  fromName : String
  currentEmail : Option InboundEmail
deriving Repr, DecidableEq

/-- Go type tools.EmailArgs. -/
structure EmailArgs where
  Action : String
  To : List String
  Cc : List String
  Subject : String
  Body : String
  HTMLBody : String
  IncludeOriginal : Option Bool
deriving Repr, DecidableEq

/-- Go type tools.EmailResult. -/
structure EmailResult where
  Sent : Bool
  To : List String
  Subject : String
  Message : String
deriving Repr, DecidableEq

/-- Stand-in for json.Marshal of an EmailResult placed in the data field
of a success envelope; no claim inspects this payload. -/
def encodeEmailResult (r : EmailResult) : String :=
  String.intercalate "," r.To ++ "|" ++ r.Subject ++ "|" ++ r.Message

/-- Go method EmailTool.appendOriginalMessage (part_005 lines 366-386). -/
def appendOriginalMessage (t : EmailTool) (body : String) : String :=
  match t.currentEmail with
  | none => body
  | some cur =>
      body ++ "\n\n---------- Original Message ----------\nFrom: " ++ cur.From.str ++
        "\nDate: " ++ cur.Date ++ "\nSubject: " ++ cur.Subject ++ "\n\n" ++ cur.Body

/-- The outbound email built by executeReply once a current email is
bound (part_005 lines 223-254). -/
def replyOutbound (t : EmailTool) (params : EmailArgs) (cur : InboundEmail) :
    OutboundEmail :=
  let toAddr := match cur.ReplyTo with
    | some r => r
    | none => cur.From
  let subject :=
    if params.Subject == "" then
      if !(goHasPre (goToLower cur.Subject) "re:") then "Re: " ++ cur.Subject
      else cur.Subject
    else params.Subject
  let body :=
    match params.IncludeOriginal with
    | some true => appendOriginalMessage t params.Body
    | _ => params.Body
  { From := { Name := t.fromName, Addr := t.fromAddress }
    To := [toAddr]
    Cc := []
    Subject := subject
    TextBody := body
    HTMLBody := params.HTMLBody
    InReplyTo := cur.MessageID }

/-- Go method EmailTool.executeReply (part_005 lines 218-266). -/
def executeReply (send : OutboundEmail → Except String Unit)
    (t : EmailTool) (params : EmailArgs) : ToolResult × List OutboundEmail :=
  match t.currentEmail with
  | none => (NewErrorResult "no current email to reply to", [])
  | some cur =>
      let outbound := replyOutbound t params cur
      match send outbound with
      | .error e => (NewErrorResult ("failed to send reply: " ++ e), [outbound])
      | .ok _ =>
          (NewSuccessResult (encodeEmailResult
            { Sent := true, To := outbound.To.map Address.Addr,
              Subject := outbound.Subject, Message := "Reply sent successfully" }),
            [outbound])

/-- The outbound email built by executeForward once a current email is
bound and recipients are present (part_005 lines 277-312). -/
def forwardOutbound (t : EmailTool) (params : EmailArgs) (cur : InboundEmail) :
    OutboundEmail :=
  let subject :=
    if params.Subject == "" then
      if !(goHasPre (goToLower cur.Subject) "fwd:") then "Fwd: " ++ cur.Subject
      else cur.Subject
    else params.Subject
  let includeOriginal :=
    match params.IncludeOriginal with
    | none => true
    | some b => b
  let body := if includeOriginal then appendOriginalMessage t params.Body else params.Body
  { From := { Name := t.fromName, Addr := t.fromAddress }
    To := params.To.map (fun a => { Name := "", Addr := a })
    Cc := params.Cc.map (fun a => { Name := "", Addr := a })
    Subject := subject
    TextBody := body
    HTMLBody := params.HTMLBody
    InReplyTo := "" }

/-- Go method EmailTool.executeForward (part_005 lines 268-324). -/
def executeForward (send : OutboundEmail → Except String Unit)
    (t : EmailTool) (params : EmailArgs) : ToolResult × List OutboundEmail :=
  match t.currentEmail with
  | none => (NewErrorResult "no current email to forward", [])
  | some cur =>
      if params.To.isEmpty then
        (NewErrorResult "recipients required for forward", [])
      else
        let outbound := forwardOutbound t params cur
        match send outbound with
        | .error e => (NewErrorResult ("failed to forward email: " ++ e), [outbound])
        | .ok _ =>
            (NewSuccessResult (encodeEmailResult
              { Sent := true, To := params.To, Subject := outbound.Subject,
                Message := "Email forwarded successfully" }), [outbound])

/-- Go method EmailTool.executeSend (part_005 lines 326-364). -/
def executeSend (send : OutboundEmail → Except String Unit)
    (t : EmailTool) (params : EmailArgs) : ToolResult × List OutboundEmail :=
  if params.To.isEmpty then
    (NewErrorResult "recipients required", [])
  else if params.Subject == "" then
    (NewErrorResult "subject required for new email", [])
  else
    let outbound : OutboundEmail :=
      { From := { Name := t.fromName, Addr := t.fromAddress }
        To := params.To.map (fun a => { Name := "", Addr := a })
        Cc := params.Cc.map (fun a => { Name := "", Addr := a })
        Subject := params.Subject
        TextBody := params.Body
        HTMLBody := params.HTMLBody
        InReplyTo := "" }
    match send outbound with
    | .error e => (NewErrorResult ("failed to send email: " ++ e), [outbound])
    | .ok _ =>
        (NewSuccessResult (encodeEmailResult
          { Sent := true, To := params.To, Subject := params.Subject,
            Message := "Email sent successfully" }), [outbound])

/-- Go method EmailTool.Execute (part_005 lines 200-216): dispatch on
the action. -/
def EmailTool.Execute (send : OutboundEmail → Except String Unit)
    (t : EmailTool) (params : EmailArgs) : ToolResult × List OutboundEmail :=
  if params.Action == "reply" then executeReply send t params
  else if params.Action == "forward" then executeForward send t params
  else if params.Action == "send" then executeSend send t params
  else (NewErrorResult ("unknown action: " ++ params.Action), [])

/-- A bound current email for the C6 witness, whose subject already
carries a reply marker in mixed case. -/
def c6cur : InboundEmail :=
  { MessageID := "<orig@x>"
    From := { Name := "Bob", Addr := "bob@example.com" }
    To := [{ Name := "", Addr := "inbox@example.com" }]
    ReplyTo := some { Name := "", Addr := "replies@example.com" }
    Subject := "RE: hello"
    Date := "Mon, 02 Jan 2006 15:04:05 -0700"
    TextBody := "original"
    HTMLBody := "" }

/-- The email tool state for the C6 and C10 witnesses. -/
def c6tool : EmailTool :=
  { fromAddress := "agent@example.com", fromName := "Agent",
    currentEmail := some c6cur }

/-- The reply arguments for the C6 witness. -/
def c6params : EmailArgs :=
  { Action := "reply", To := [], Cc := [], Subject := "", Body := "OK",
    HTMLBody := "", IncludeOriginal := none }

/-- A sender for the witnesses that always succeeds. -/
def okSend : OutboundEmail → Except String Unit := fun _ => .ok ()

/-- The tool state with no bound email, for the C10 witness. -/
def c10tool : EmailTool :=
  { fromAddress := "agent@example.com", fromName := "Agent", currentEmail := none }

/-- The forward arguments for the C10 witness. -/
def c10params : EmailArgs :=
  { Action := "forward", To := ["x@example.com"], Cc := [], Subject := "",
    Body := "fwd", HTMLBody := "", IncludeOriginal := none }

/-! ## The database_query tool (part_004)

Only the validation logic decides the claim; running SQL is embedded by
the outcome constructors runSelect / runModify. -/
/-- Outcome of DatabaseTool.Execute up to actually running SQL. -/
inductive DbOutcome where
  | errorResult (msg : String)
  | runSelect (query : String)
  | runModify (query : String)
deriving Repr, DecidableEq

/-- Go method DatabaseTool.Execute (part_004 lines 78-114), given the
already-unmarshalled query string. The read-only check precedes the DDL
check, and the DDL check uses strings.Contains on the trimmed
upper-cased query. -/
def DatabaseTool.Execute (readOnly : Bool) (query : String) : DbOutcome :=
  if query == "" then .errorResult "query is required"
  else
    let queryUpper := goToUpper (goTrimSpace query)
    let isSelect := goHasPre queryUpper "SELECT"
    if readOnly && !isSelect then
      .errorResult "only SELECT queries are allowed in read-only mode"
    else if goContains queryUpper "DROP " || goContains queryUpper "TRUNCATE " ||
        goContains queryUpper "ALTER " || goContains queryUpper "CREATE " then
      .errorResult "DDL operations are not allowed"
    else if isSelect then .runSelect query
    else .runModify query

/-- The claim's reading of the DDL refusal: the trimmed upper-cased
query must BEGIN with one of the four DDL keywords. -/
def ddlByClaim (query : String) : Bool :=
  goHasPre (goToUpper (goTrimSpace query)) "DROP " ||
  goHasPre (goToUpper (goTrimSpace query)) "TRUNCATE " ||
  goHasPre (goToUpper (goTrimSpace query)) "ALTER " ||
  goHasPre (goToUpper (goTrimSpace query)) "CREATE "

/-- The code's DDL condition: substring containment anywhere in the
trimmed upper-cased query. -/
def ddlByCode (query : String) : Bool :=
  goContains (goToUpper (goTrimSpace query)) "DROP " ||
  goContains (goToUpper (goTrimSpace query)) "TRUNCATE " ||
  goContains (goToUpper (goTrimSpace query)) "ALTER " ||
  goContains (goToUpper (goTrimSpace query)) "CREATE "

/-- The trimmed upper-cased query starts with SELECT. -/
def isSelectQuery (query : String) : Bool :=
  goHasPre (goToUpper (goTrimSpace query)) "SELECT"

/-! ## The MCP client pending map (internal/mcp/client.go)

`ServerConnection.request` registers a response channel under the fresh
request id, and a deferred delete removes the entry on every return
path. The pending map is embedded as the finite set of registered ids
(the channel values play no role in the claim), and the return paths of
the Go function are enumerated by `ReqPath`. -/
/-- The return paths of ServerConnection.request (client.go lines
284-328), all reached after the pending entry was inserted: marshal
failure, stdin write failure, a response delivered by readResponses
(JSON-RPC error or result), or the caller's context cancelled first. -/
inductive ReqPath where
  | marshalError (e : String)
  | writeError (e : String)
  | respError (code : Int) (msg : String)
  | respOk (result : String)
  | cancelled (ctxErr : String)
deriving Repr, DecidableEq

/-- Outcome of request: `(*JSONRPCResponse, error)` in Go. -/
inductive ReqResult where
  | ok (result : String)
  | err (e : String)
deriving Repr, DecidableEq

/-- Go method ServerConnection.request: insert the pending entry, then
return along one of the paths; the deferred
`delete(c.pending, id)` runs at every return. Returns the outcome and
the final pending map. -/
def ServerConnection.request (pending : Finset Int) (id : Int) (path : ReqPath) :
    ReqResult × Finset Int :=
  let p1 := insert id pending
  match path with
  | .marshalError e => (.err e, p1.erase id)
  | .writeError e => (.err ("failed to write request: " ++ e), p1.erase id)
  | .respError code msg =>
      (.err ("MCP error " ++ toString code ++ ": " ++ msg), p1.erase id)
  | .respOk r => (.ok r, p1.erase id)
  | .cancelled e => (.err e, p1.erase id)

/-! ## Message id synthesis (part_003) -/
/-- Go function generateMessageID (part_003 lines 238-241):
`fmt.Sprintf("<%d.emitt@localhost>", time.Now().UnixNano())`, given the
clock reading. -/
def generateMessageID (nowUnixNano : Int) : String :=
  "<" ++ toString nowUnixNano ++ ".emitt@localhost>"

/-- Parser.Parse lines 42-46: the Message-ID header when present,
otherwise a synthesized id. -/
def parseMessageID (headerMessageID : String) (nowUnixNano : Int) : String :=
  if headerMessageID == "" then generateMessageID nowUnixNano else headerMessageID

/-! ## Theorems -/

theorem matches_iff_spec (r : Rule) (e : InboundEmail) :
    r.Matches e = true ↔ MatchesSpec r e := by
  unfold Rule.Matches MatchesSpec
  cases hf : r.Match.From <;> cases ht : r.Match.To <;> cases hs : r.Match.Subject <;>
    simp [List.any_eq_true, and_assoc]

theorem find?_first {α : Type} (p : α → Bool) :
    ∀ (l : List α) (a : α), l.find? p = some a →
      ∃ i : Fin l.length, l.get i = a ∧ p a = true ∧
        ∀ j : Fin l.length, j.val < i.val → p (l.get j) = false := by
  intro l
  induction l with
  | nil => intro a h; simp [List.find?] at h
  | cons x xs ih =>
    intro a h
    cases hx : p x with
    | true =>
      have hxa : x = a := by
        rw [List.find?_cons_of_pos _ hx] at h
        exact Option.some.inj h
      refine ⟨⟨0, Nat.succ_pos _⟩, hxa, hxa ▸ hx, ?_⟩
      intro j hj
      exact absurd hj (Nat.not_lt_zero _)
    | false =>
      have h' : xs.find? p = some a := by
        rw [List.find?_cons_of_neg _ (by simp [hx])] at h
        exact h
      obtain ⟨i, hget, hpa, hfirst⟩ := ih a h'
      refine ⟨⟨i.val + 1, Nat.succ_lt_succ i.isLt⟩, ?_, hpa, ?_⟩
      · simpa using hget
      · intro j hj
        match j with
        | ⟨0, _⟩ => simpa using hx
        | ⟨k + 1, hk⟩ =>
          have hk' : k < xs.length := Nat.lt_of_succ_lt_succ hk
          have hlt : k < i.val := Nat.lt_of_succ_lt_succ hj
          have := hfirst ⟨k, hk'⟩ hlt
          simpa using this

/-- C1. `Route`/`FindMatch` return the first rule, in config order, whose
every declared predicate matches (omitted predicates are wildcards, `from`
is checked against the sender's bare address, `to` is satisfied by any one
recipient, `subject` by the decoded subject); no earlier rule matches, and
the routing decision carries that rule's mailbox name. -/
theorem c1_route_first_match (rules : List Rule) (e : InboundEmail) (r : Rule)
    (h : RuleSet.FindMatch rules e = some r) :
    MatchesSpec r e ∧
    (Router.Route rules e).MailboxName = r.Name ∧
    ∃ i : Fin rules.length, rules.get i = r ∧
      ∀ j : Fin rules.length, j.val < i.val → ¬ MatchesSpec (rules.get j) e := by
  have h' : rules.find? (fun r => r.Matches e) = some r := h
  obtain ⟨i, hget, hpa, hfirst⟩ := find?_first (fun r => r.Matches e) rules r h'
  refine ⟨(matches_iff_spec r e).mp hpa, ?_, i, hget, ?_⟩
  · unfold Router.Route
    rw [h]
  · intro j hj hspec
    have := (matches_iff_spec (rules.get j) e).mpr hspec
    rw [hfirst j hj] at this
    exact absurd this (by simp)

/-- Witness for C1 at a concrete rule set and email. -/
theorem c1_route_first_match_witness :
    MatchesSpec (c1Rules.get ⟨0, by decide⟩) c1Email ∧
    (Router.Route c1Rules c1Email).MailboxName = (c1Rules.get ⟨0, by decide⟩).Name ∧
    ∃ i : Fin c1Rules.length, c1Rules.get i = c1Rules.get ⟨0, by decide⟩ ∧
      ∀ j : Fin c1Rules.length, j.val < i.val →
        ¬ MatchesSpec (c1Rules.get j) c1Email :=
  c1_route_first_match c1Rules c1Email (c1Rules.get ⟨0, by decide⟩) rfl

theorem runLoop_modelCalls_le (chat : Nat → ChatResult)
    (exec : String → String → Except String ToolResult) :
    ∀ (rem i : Nat) (input : List InputItem),
      (runLoop chat exec i rem input).modelCalls ≤ rem := by
  intro rem
  induction rem with
  | zero => intro i input; simp [runLoop]
  | succ n ih =>
    intro i input
    cases hc : chat i with
    | err e => simp [runLoop, hc]
    | ok resp =>
      cases hct : completionText resp with
      | some t => simp [runLoop, hc, hct]
      | none =>
        cases hfc : (functionCalls resp).isEmpty with
        | true => simp [runLoop, hc, hct, hfc]
        | false =>
          have := ih (i + 1) (input ++ (functionCalls resp).map (execOne exec))
          simp only [runLoop, hc, hct, hfc, Bool.false_eq_true, if_false]
          omega

theorem runLoop_finalInput_eq (chat : Nat → ChatResult)
    (exec : String → String → Except String ToolResult) :
    ∀ (rem i : Nat) (input : List InputItem),
      (runLoop chat exec i rem input).finalInput =
        input ++ ((runLoop chat exec i rem input).executedCalls).map (execOne exec) := by
  intro rem
  induction rem with
  | zero => intro i input; simp [runLoop]
  | succ n ih =>
    intro i input
    cases hc : chat i with
    | err e => simp [runLoop, hc]
    | ok resp =>
      cases hct : completionText resp with
      | some t => simp [runLoop, hc, hct]
      | none =>
        cases hfc : (functionCalls resp).isEmpty with
        | true => simp [runLoop, hc, hct, hfc]
        | false =>
          have := ih (i + 1) (input ++ (functionCalls resp).map (execOne exec))
          simp only [runLoop, hc, hct, hfc, Bool.false_eq_true, if_false]
          simp only [this, List.map_append, List.append_assoc]

theorem runLoop_all_continue (chat : Nat → ChatResult)
    (exec : String → String → Except String ToolResult)
    (h : ∀ i, continues (chat i) = true) :
    ∀ (rem i : Nat) (input : List InputItem),
      (runLoop chat exec i rem input).result =
        .fail "max iterations reached without completion" := by
  intro rem
  induction rem with
  | zero => intro i input; simp [runLoop]
  | succ n ih =>
    intro i input
    have hi := h i
    cases hc : chat i with
    | err e => rw [hc] at hi; simp [continues] at hi
    | ok resp =>
      rw [hc] at hi
      simp only [continues, Bool.and_eq_true, Option.isNone_iff_eq_none,
        Bool.not_eq_true'] at hi
      obtain ⟨hct, hfc⟩ := hi
      have := ih (i + 1) (input ++ (functionCalls resp).map (execOne exec))
      simp only [runLoop, hc, hct, hfc, Bool.false_eq_true, if_false]
      exact this

/-- C2. `ProcessWithTools` makes at most `max_iterations` model calls
(the bound defaulting to 10 on a non-positive argument), appends exactly
one function_call_output entry per tool call emitted by the model (the
final input is the user message followed by one entry per executed
call, in order), and if no iteration terminates the loop it fails with
"max iterations reached without completion". -/
theorem c2_loop_bounds (chat : Nat → ChatResult)
    (exec : String → String → Except String ToolResult)
    (userMessage : String) (maxIterations : Int) (out : LoopOut)
    (hout : ProcessWithTools chat exec userMessage maxIterations = out) :
    out.modelCalls ≤ (if maxIterations ≤ 0 then (10 : Int) else maxIterations).toNat ∧
    out.finalInput =
      InputItem.userMsg "user" userMessage :: out.executedCalls.map (execOne exec) ∧
    ((∀ i, continues (chat i) = true) →
      out.result = .fail "max iterations reached without completion") := by
  subst hout
  unfold ProcessWithTools
  refine ⟨runLoop_modelCalls_le chat exec _ 0 _, ?_, ?_⟩
  · simpa using runLoop_finalInput_eq chat exec _ 0 [.userMsg "user" userMessage]
  · intro h
    exact runLoop_all_continue chat exec h _ 0 _

/-- Witness for C2 at a concrete oracle and a negative iteration bound. -/
theorem c2_loop_bounds_witness :
    (ProcessWithTools c2chat c2exec "hi" (-5)).modelCalls ≤
      (if (-5 : Int) ≤ 0 then (10 : Int) else (-5 : Int)).toNat ∧
    (ProcessWithTools c2chat c2exec "hi" (-5)).finalInput =
      InputItem.userMsg "user" "hi" ::
        ((ProcessWithTools c2chat c2exec "hi" (-5)).executedCalls).map (execOne c2exec) ∧
    ((∀ i, continues (c2chat i) = true) →
      (ProcessWithTools c2chat c2exec "hi" (-5)).result =
        .fail "max iterations reached without completion") :=
  c2_loop_bounds c2chat c2exec "hi" (-5) _ rfl

theorem runLoop_fail_source (chat : Nat → ChatResult)
    (exec : String → String → Except String ToolResult) :
    ∀ (rem i : Nat) (input : List InputItem) (e : String),
      (runLoop chat exec i rem input).result = .fail e →
      e = "max iterations reached without completion" ∨ ∃ j, chat j = .err e := by
  intro rem
  induction rem with
  | zero =>
    intro i input e h
    simp [runLoop] at h
    exact Or.inl h.symm
  | succ n ih =>
    intro i input e h
    cases hc : chat i with
    | err e0 =>
      simp only [runLoop, hc] at h
      exact Or.inr ⟨i, by rw [hc]; exact congrArg ChatResult.err (LoopResult.fail.inj h)⟩
    | ok resp =>
      cases hct : completionText resp with
      | some t => simp [runLoop, hc, hct] at h
      | none =>
        cases hfc : (functionCalls resp).isEmpty with
        | true => simp [runLoop, hc, hct, hfc] at h
        | false =>
          simp only [runLoop, hc, hct, hfc, Bool.false_eq_true, if_false] at h
          exact ih (i + 1) _ e h

/-- C3. A tool execution error inside the loop is recorded as a
function_call_output whose envelope is success=false with the error
message (this includes the registry's unknown-tool lookup error), the
loop proceeds to the next model iteration exactly as on success, and a
`fail` outcome of the loop is only ever the max-iterations message or a
`Chat` error — never a tool execution error by itself. -/
theorem c3_tool_error_continues (chat : Nat → ChatResult)
    (exec : String → String → Except String ToolResult)
    (i rem : Nat) (input : List InputItem) (resp : ResponseObject)
    (hchat : chat i = .ok resp)
    (hct : completionText resp = none)
    (hfc : (functionCalls resp).isEmpty = false) :
    (runLoop chat exec i (rem + 1) input).result =
      (runLoop chat exec (i + 1) rem
        (input ++ (functionCalls resp).map (execOne exec))).result ∧
    (∀ fc : OutputItem, ∀ msg : String,
      exec fc.name fc.arguments = .error msg →
      execOne exec fc = .functionCallOutput fc.callID
        { success := false, data := "", error := msg }) ∧
    (∀ e : String, (runLoop chat exec i (rem + 1) input).result = .fail e →
      e = "max iterations reached without completion" ∨ ∃ j, chat j = .err e) := by
  refine ⟨?_, ?_, ?_⟩
  · simp only [runLoop, hchat, hct, hfc, Bool.false_eq_true, if_false]
  · intro fc msg hmsg
    unfold execOne
    rw [hmsg]
    rfl
  · intro e h
    exact runLoop_fail_source chat exec (rem + 1) i input e h

/-- Witness for C3 at a concrete iteration. -/
theorem c3_tool_error_continues_witness :
    (runLoop c3chat c3exec 0 (0 + 1) []).result =
      (runLoop c3chat c3exec (0 + 1) 0
        ([] ++ (functionCalls c3resp).map (execOne c3exec))).result ∧
    (∀ fc : OutputItem, ∀ msg : String,
      c3exec fc.name fc.arguments = .error msg →
      execOne c3exec fc = .functionCallOutput fc.callID
        { success := false, data := "", error := msg }) ∧
    (∀ e : String, (runLoop c3chat c3exec 0 (0 + 1) []).result = .fail e →
      e = "max iterations reached without completion" ∨ ∃ j, c3chat j = .err e) :=
  c3_tool_error_continues c3chat c3exec 0 0 [] c3resp rfl rfl rfl

/-- C4 (code bug in the source). The routing decision's mailbox name is
never written back to the stored row: `UpdateEmailStatus` updates only
the status and processed_at columns, so `mailbox_name` keeps its
insert-time empty value and differs from `RouteResult.MailboxName`,
which is never empty (even the no-match default is "unmatched"). -/
theorem c4_mailbox_name_not_persisted :
    (∀ (rr : RouteResult) (ok : Bool), (Process rr ok).row.MailboxName = "") ∧
    (Process { MailboxName := "unmatched", ProcessorType := "noop" } true).row.MailboxName
      ≠ (Process { MailboxName := "unmatched", ProcessorType := "noop" } true).routedMailbox := by
  refine ⟨fun rr ok => rfl, by decide⟩

/-- C5 counterexample: on a multipart message whose text/plain type
appears twice, the walker's text body is the second part's body, not
the first's — later parts are not ignored. -/
theorem c5_first_wins_counterexample :
    (parseBody c5TwoPlain { TextBody := "", HTMLBody := "", AttachmentNames := [] }).TextBody
      = "second" ∧
    (parseBody c5TwoPlain { TextBody := "", HTMLBody := "", AttachmentNames := [] }).TextBody
      ≠ "first" := by
  have h : (parseBody c5TwoPlain { TextBody := "", HTMLBody := "", AttachmentNames := [] }).TextBody
      = "second" := by
    simp +decide [c5TwoPlain, parseBody, parseBodyList]
  exact ⟨h, by rw [h]; decide⟩

/-- C5 (amended). When the same body type appears multiple times, the
last occurrence wins: running the walk on any part sequence ending in a
text/plain (resp. text/html) body part leaves that part's body in
TextBody (resp. HTMLBody), whatever came before. -/
theorem c5_last_part_wins (ps : List Part) (acc : ParsedBody) (b : String) :
    (parseBodyList (ps ++ [.leaf "text/plain" "" "" b]) acc).TextBody = b ∧
    (parseBodyList (ps ++ [.leaf "text/html" "" "" b]) acc).HTMLBody = b := by
  induction ps generalizing acc with
  | nil => constructor <;> simp +decide [parseBodyList, parseBody]
  | cons p rest ih => simpa [parseBodyList] using ih (parseBody p acc)

/-- C6. A send_email execution with action=reply and a bound current
email hands the sender exactly one outbound email whose single
recipient is the current email's Reply-To if present, else its From;
whose subject is the provided one when non-empty and otherwise "Re: "
prepended to the original subject unless the original already starts
with "re:" case-insensitively (then unchanged); and whose In-Reply-To
is the current email's message id. -/
theorem c6_reply_semantics (send : OutboundEmail → Except String Unit)
    (t : EmailTool) (params : EmailArgs) (cur : InboundEmail)
    (hcur : t.currentEmail = some cur) (hact : params.Action = "reply") :
    ∃ out : OutboundEmail,
      (EmailTool.Execute send t params).2 = [out] ∧
      out.To = [cur.ReplyTo.getD cur.From] ∧
      (params.Subject ≠ "" → out.Subject = params.Subject) ∧
      (params.Subject = "" → goHasPre (goToLower cur.Subject) "re:" = true →
        out.Subject = cur.Subject) ∧
      (params.Subject = "" → goHasPre (goToLower cur.Subject) "re:" = false →
        out.Subject = "Re: " ++ cur.Subject) ∧
      out.InReplyTo = cur.MessageID := by
  have hdisp : EmailTool.Execute send t params = executeReply send t params := by
    unfold EmailTool.Execute
    simp [hact]
  refine ⟨replyOutbound t params cur, ?_, ?_, ?_, ?_, ?_, ?_⟩
  · rw [hdisp]
    unfold executeReply
    rw [hcur]
    cases hs : send (replyOutbound t params cur) <;> simp [hs]
  · unfold replyOutbound
    cases cur.ReplyTo <;> rfl
  · intro h
    unfold replyOutbound
    simp [h]
  · intro h hre
    unfold replyOutbound
    simp [h, hre]
  · intro h hre
    unfold replyOutbound
    simp [h, hre]
  · rfl

/-- Witness for C6 at a concrete tool state and arguments. -/
theorem c6_reply_semantics_witness :
    ∃ out : OutboundEmail,
      (EmailTool.Execute okSend c6tool c6params).2 = [out] ∧
      out.To = [c6cur.ReplyTo.getD c6cur.From] ∧
      (c6params.Subject ≠ "" → out.Subject = c6params.Subject) ∧
      (c6params.Subject = "" → goHasPre (goToLower c6cur.Subject) "re:" = true →
        out.Subject = c6cur.Subject) ∧
      (c6params.Subject = "" → goHasPre (goToLower c6cur.Subject) "re:" = false →
        out.Subject = "Re: " ++ c6cur.Subject) ∧
      out.InReplyTo = c6cur.MessageID :=
  c6_reply_semantics okSend c6tool c6params c6cur rfl rfl

/-- C10. Executing send_email with action=reply or action=forward while
no current email is bound returns the error envelope success=false with
message "no current email to reply to" / "no current email to forward",
and the sender is never invoked. -/
theorem c10_no_current_email (send : OutboundEmail → Except String Unit)
    (t : EmailTool) (params : EmailArgs)
    (hnone : t.currentEmail = none)
    (hact : params.Action = "reply" ∨ params.Action = "forward") :
    (EmailTool.Execute send t params).1.success = false ∧
    (params.Action = "reply" →
      (EmailTool.Execute send t params).1.error = "no current email to reply to") ∧
    (params.Action = "forward" →
      (EmailTool.Execute send t params).1.error = "no current email to forward") ∧
    (EmailTool.Execute send t params).2 = [] := by
  cases hact with
  | inl h =>
    have : EmailTool.Execute send t params = executeReply send t params := by
      unfold EmailTool.Execute; simp [h]
    rw [this]
    unfold executeReply
    rw [hnone]
    refine ⟨rfl, fun _ => rfl, fun hf => ?_, rfl⟩
    rw [h] at hf
    exact absurd hf (by decide)
  | inr h =>
    have : EmailTool.Execute send t params = executeForward send t params := by
      unfold EmailTool.Execute; simp [h]
    rw [this]
    unfold executeForward
    rw [hnone]
    refine ⟨rfl, fun hr => ?_, fun _ => rfl, rfl⟩
    rw [h] at hr
    exact absurd hr (by decide)

/-- Witness for C10 at a concrete tool state with no bound email. -/
theorem c10_no_current_email_witness :
    (EmailTool.Execute okSend c10tool c10params).1.success = false ∧
    (c10params.Action = "reply" →
      (EmailTool.Execute okSend c10tool c10params).1.error = "no current email to reply to") ∧
    (c10params.Action = "forward" →
      (EmailTool.Execute okSend c10tool c10params).1.error = "no current email to forward") ∧
    (EmailTool.Execute okSend c10tool c10params).2 = [] :=
  c10_no_current_email okSend c10tool c10params rfl (Or.inr rfl)

/-- C7 counterexample: a SELECT query that merely contains "DROP " in a
string literal does not satisfy the claim's DDL prefix condition, yet
the code refuses it with the DDL error. -/
theorem c7_ddl_check_counterexample :
    DatabaseTool.Execute false "SELECT * FROM emails WHERE subject = \"DROP TABLE\""
      = DbOutcome.errorResult "DDL operations are not allowed" ∧
    ddlByClaim "SELECT * FROM emails WHERE subject = \"DROP TABLE\"" = false := by
  constructor
  · decide
  · decide

/-- C7 (amended). The DDL refusal triggers on substring containment of
"DROP ", "TRUNCATE ", "ALTER " or "CREATE " anywhere in the trimmed
upper-cased query, not only as its leading keyword, and it is checked
after the read-only gate: with read_only=true every non-SELECT query is
refused with the read-only error, a query passing the read-only gate is
refused with the DDL error exactly when it contains a DDL keyword, and
queries passing both gates are never refused by these checks. -/
theorem c7_query_validation (ro : Bool) (q : String) (hq : q ≠ "") :
    (ro = true → isSelectQuery q = false →
      DatabaseTool.Execute ro q =
        DbOutcome.errorResult "only SELECT queries are allowed in read-only mode") ∧
    ((ro = true → isSelectQuery q = true) → ddlByCode q = true →
      DatabaseTool.Execute ro q = DbOutcome.errorResult "DDL operations are not allowed") ∧
    ((ro = true → isSelectQuery q = true) → ddlByCode q = false →
      ∀ m, DatabaseTool.Execute ro q ≠ DbOutcome.errorResult m) := by
  have hqb : (q == "") = false := by
    simpa using hq
  refine ⟨?_, ?_, ?_⟩
  · intro hro hsel
    subst hro
    unfold DatabaseTool.Execute
    rw [hqb]
    simp only [isSelectQuery] at hsel
    simp [hsel]
  · intro hro hddl
    unfold DatabaseTool.Execute
    rw [hqb]
    have hdd : (goContains (goToUpper (goTrimSpace q)) "DROP " ||
        goContains (goToUpper (goTrimSpace q)) "TRUNCATE " ||
        goContains (goToUpper (goTrimSpace q)) "ALTER " ||
        goContains (goToUpper (goTrimSpace q)) "CREATE ") = true := by
      simpa [ddlByCode] using hddl
    cases ro with
    | false => simp [hdd]
    | true =>
      have hsel := hro rfl
      simp only [isSelectQuery] at hsel
      simp [hsel, hdd]
  · intro hro hddl m
    unfold DatabaseTool.Execute
    rw [hqb]
    have hdd : (goContains (goToUpper (goTrimSpace q)) "DROP " ||
        goContains (goToUpper (goTrimSpace q)) "TRUNCATE " ||
        goContains (goToUpper (goTrimSpace q)) "ALTER " ||
        goContains (goToUpper (goTrimSpace q)) "CREATE ") = false := by
      simpa [ddlByCode] using hddl
    cases ro with
    | false =>
      simp only [Bool.false_and, Bool.false_eq_true, if_false, hdd]
      cases hs : goHasPre (goToUpper (goTrimSpace q)) "SELECT" <;> simp [hs]
    | true =>
      have hsel := hro rfl
      simp only [isSelectQuery] at hsel
      simp [hsel, hdd]

/-- Witness for C7 at a concrete read-only tool and UPDATE query. -/
theorem c7_query_validation_witness :
    ((true : Bool) = true → isSelectQuery "UPDATE emails SET status = ?" = false →
      DatabaseTool.Execute true "UPDATE emails SET status = ?" =
        DbOutcome.errorResult "only SELECT queries are allowed in read-only mode") ∧
    (((true : Bool) = true → isSelectQuery "UPDATE emails SET status = ?" = true) →
      ddlByCode "UPDATE emails SET status = ?" = true →
      DatabaseTool.Execute true "UPDATE emails SET status = ?" =
        DbOutcome.errorResult "DDL operations are not allowed") ∧
    (((true : Bool) = true → isSelectQuery "UPDATE emails SET status = ?" = true) →
      ddlByCode "UPDATE emails SET status = ?" = false →
      ∀ m, DatabaseTool.Execute true "UPDATE emails SET status = ?" ≠
        DbOutcome.errorResult m) :=
  c7_query_validation true "UPDATE emails SET status = ?" (by decide)

/-- C8. On every return path of `request` — response received, JSON-RPC
error, marshal or write failure, or caller's context cancelled before a
response — the pending-map entry for the request id is removed: the id
is absent from the final map, and the map equals what it was before the
request, so no outstanding-request-free state retains an entry and a
cancelled caller leaves no orphan. -/
theorem c8_pending_entry_removed (pending : Finset Int) (id : Int) (path : ReqPath)
    (hfresh : id ∉ pending) :
    id ∉ (ServerConnection.request pending id path).2 ∧
    (ServerConnection.request pending id path).2 = pending := by
  cases path <;>
    exact ⟨Finset.not_mem_erase id _, Finset.erase_insert hfresh⟩

/-- Witness for C8 at an empty pending map and a cancelled caller. -/
theorem c8_pending_entry_removed_witness :
    (7 : Int) ∉ (ServerConnection.request ∅ 7 (.cancelled "context canceled")).2 ∧
    (ServerConnection.request ∅ 7 (.cancelled "context canceled")).2 = ∅ :=
  c8_pending_entry_removed ∅ 7 (.cancelled "context canceled") (by decide)

/-- C9 counterexample: at a concrete clock reading the synthesized id
is "<nanos>.emitt@localhost" in angle brackets, not the claimed
"<nanos>.local". -/
theorem c9_message_id_counterexample :
    parseMessageID "" 1700000000000000000 = "<1700000000000000000.emitt@localhost>" ∧
    parseMessageID "" 1700000000000000000 ≠ "<1700000000000000000.local>" := by
  constructor
  · rfl
  · decide

/-- C9 (amended). A message without a Message-ID header gets the
synthesized id consisting of the Unix-nanosecond timestamp followed by
".emitt@localhost", enclosed in angle brackets. -/
theorem c9_message_id_format (nowUnixNano : Int) :
    parseMessageID "" nowUnixNano =
      "<" ++ toString nowUnixNano ++ ".emitt@localhost>" := rfl

end Emitt

